import Mathlib

/-!
Verification development for the creator-application job portal.

The definitions below are a shallow embedding of the TypeScript source:

* `src/types.ts` — the data model (enums and record shapes);
* `src/App.tsx` — the workflow handlers (`handleApply`, `handleHireApplicant`,
  `handleUpdateInvoiceStatus`, `handleCreateInvoice`, `handleCompleteProject`,
  `handleMarkAllNotificationsRead`, the `onAuthStateChanged` listener);
* `src/components/Profile.tsx` — bank-info serialisation (`handleSave`) and
  deserialisation (the `useEffect` form loader).

Conventions of the embedding:

* JavaScript `number` values used as currency amounts are embedded as `Nat`;
  arithmetic such as `Math.floor(amount * 1.1)` is read over exact rationals.
* Remote writes (`createDocument` / `updateDocument`) are recorded as values in
  per-handler result structures rather than performed; the remote store itself
  is an external collaborator.  Handlers that the source wraps in `try`/`catch`
  around fallible external calls take an explicit environment describing the
  outcome of those calls.
* JavaScript `Date` values are embedded as a year/month/day triple with the
  0-indexed month convention of the `Date` API; `toISOString().split('T')[0]`
  is abstracted to the calendar triple itself (UTC environment assumed).
* `JSON.stringify` / `JSON.parse` on the bank-info blob are embedded as a
  concrete serialiser and parser for the exact object shape the profile save
  writes, including the standard JSON string escapes.
-/

namespace CreatorApp

/-! ## Data model (src/types.ts) -/

inductive UserRole
  | GUEST
  | CANDIDATE
  | PARTNER
  | ADMIN
deriving DecidableEq

inductive UserStatus
  | PENDING
  | APPROVED
  | CERTIFIED
  | INACTIVE
  | ACTIVE
  | REJECTED
deriving DecidableEq

inductive ProjectCategory
  | LECTURER
  | DX_CONSULTING
  | DEVELOPMENT
deriving DecidableEq

inductive ProjectStatus
  | DRAFT
  | RECRUITING
  | IN_PROGRESS
  | COMPLETED
  | CANCELLED
deriving DecidableEq

inductive ApplicationStatus
  | APPLIED
  | REJECTED
  | HIRED
deriving DecidableEq

inductive InvoiceStatus
  | UNBILLED
  | BILLED
  | PAID
deriving DecidableEq

inductive NotificationType
  | INFO
  | SUCCESS
  | WARNING
  | ERROR
  | MESSAGE
deriving DecidableEq

inductive ViewState
  | LOGIN
  | REGISTER
  | DASHBOARD
  | PROJECTS_LIST
  | PROJECT_DETAIL
  | INVOICES
  | ADMIN_PARTNERS
  | DIRECT_MESSAGES
  | PROFILE
deriving DecidableEq

structure Review where
  score : Nat
  comment : String
  createdAt : String
deriving DecidableEq

/-- `User` record, restricted to the fields the workflow handlers read.
Presentation-only fields (avatar, tags, portfolio, …) are omitted. -/
structure User where
  id : String
  name : String
  email : String
  role : UserRole
  status : UserStatus
  jobPortalEnabled : Bool
  invoiceNumber : Option String
  bankAccountInfo : Option String
  phoneNumber : Option String
  postalCode : Option String
  address : Option String
deriving DecidableEq

structure Project where
  id : String
  title : String
  description : String
  category : ProjectCategory
  budget : Nat
  requiredSkills : List String
  status : ProjectStatus
  createdAt : String
  assignedToUserId : Option String
  review : Option Review
deriving DecidableEq

structure Application where
  id : String
  projectId : String
  userId : String
  status : ApplicationStatus
  message : String
  quoteAmount : Nat
  availableStartDate : String
  createdAt : String
  isRead : Bool
deriving DecidableEq

structure Invoice where
  id : String
  userId : String
  projectId : String
  amount : Nat
  issueDate : String
  status : InvoiceStatus
  pdfUrl : Option String
deriving DecidableEq

structure Notification where
  id : String
  userId : String
  type : NotificationType
  title : String
  message : String
  isRead : Bool
  createdAt : String
  link : Option String
deriving DecidableEq

/-! ## Effect vocabulary

Handlers in `src/App.tsx` act by calling `createDocument` / `updateDocument`,
`addNotification` and `showToast`.  Each handler below returns a record of the
effects it requested, in source order. -/

/-- A toast raised through `showToast` (type, title, message). -/
structure ToastMsg where
  type : NotificationType
  title : String
  message : String
deriving DecidableEq

/-- A notification dispatched through `addNotification`
(recipient, type, title, message, optional link). -/
structure NotificationOut where
  userId : String
  type : NotificationType
  title : String
  message : String
  link : Option String
deriving DecidableEq

/-- JavaScript `x || y` on an optional string: `undefined`, `null` and the
empty string are falsy. -/
def jsOrString (o : Option String) (dflt : String) : String :=
  match o with
  | none => dflt
  | some s => if s = "" then dflt else s

/-! ## Apply (src/App.tsx, `handleApply`) -/

structure ApplyResult where
  applicationsCreated : List Application
  toasts : List ToastMsg
  notifications : List NotificationOut
deriving DecidableEq

/-- `handleApply(projectId, message, quoteAmount)` from `src/App.tsx`.
`today` stands for `new Date().toISOString().split('T')[0]` and `newId` for
the generated id `a${Date.now()}`. -/
def handleApply (currentUser : Option User) (projects : List Project)
    (users : List User) (projectId message : String) (quoteAmount : Nat)
    (today newId : String) : ApplyResult :=
  match currentUser with
  | none => ⟨[], [], []⟩
  | some cu =>
    let newApp : Application :=
      { id := newId, projectId := projectId, userId := cu.id
        status := ApplicationStatus.APPLIED, message := message
        quoteAmount := quoteAmount, availableStartDate := today
        createdAt := today, isRead := false }
    let toasts : List ToastMsg :=
      [⟨NotificationType.SUCCESS, "応募完了", "案件への応募が完了しました。"⟩]
    let project := projects.find? (fun p => p.id == projectId)
    let admin := users.find? (fun u => u.role == UserRole.ADMIN)
    match admin, project with
    | some a, some p =>
      ⟨[newApp], toasts,
        [⟨a.id, NotificationType.INFO, "案件への応募",
          cu.name ++ " さんが「" ++ p.title ++ "」に応募しました。",
          some ("PROJECT:" ++ projectId)⟩]⟩
    | _, _ => ⟨[newApp], toasts, []⟩

/-! ## Mark all notifications read (src/App.tsx, `handleMarkAllNotificationsRead`)

The handler walks the locally cached notification list and issues
`updateDocument('notifications', n.id, { isRead: true })` for every unread
notification of the current user; the function below returns the store after
those writes are applied. -/

def handleMarkAllNotificationsRead (currentUser : Option User)
    (notifications : List Notification) : List Notification :=
  match currentUser with
  | none => notifications
  | some cu =>
    notifications.map (fun n =>
      if !n.isRead && n.userId == cu.id then { n with isRead := true } else n)

/-! ## Hire (src/App.tsx, `handleHireApplicant`) -/

/-- Fields written by `updateDocument('projects', projectId, …)` at hire time. -/
structure ProjectHireUpdate where
  status : ProjectStatus
  assignedToUserId : String
deriving DecidableEq

structure HireResult where
  projectUpdates : List (String × ProjectHireUpdate)
  applicationUpdates : List (String × ApplicationStatus)
  invoicesCreated : List Invoice
  toasts : List ToastMsg
  notifications : List NotificationOut
deriving DecidableEq

/-- `handleHireApplicant(projectId, applicationId, userId)` from `src/App.tsx`.
`invId` stands for the generated id `inv${Date.now()}`.  Remote-write failure
is outside the model (the store is an external collaborator). -/
def handleHireApplicant (projects : List Project)
    (applications : List Application)
    (projectId applicationId userId invId : String) : HireResult :=
  let projectToHire := projects.find? (fun p => p.id == projectId)
  let applicationToHire := applications.find? (fun a => a.id == applicationId)
  match projectToHire, applicationToHire with
  | some p, some a =>
    -- JS: applicationToHire.quoteAmount || projectToHire.budget
    let quoteAmount := if a.quoteAmount = 0 then p.budget else a.quoteAmount
    let newInvoice : Invoice :=
      { id := invId, projectId := projectId, userId := userId
        amount := quoteAmount, issueDate := "-"
        status := InvoiceStatus.UNBILLED, pdfUrl := none }
    { projectUpdates := [(projectId, ⟨ProjectStatus.IN_PROGRESS, userId⟩)]
      applicationUpdates := [(applicationId, ApplicationStatus.HIRED)]
      invoicesCreated := [newInvoice]
      toasts := [⟨NotificationType.SUCCESS, "採用完了",
        "パートナーを採用し、案件を開始しました。"⟩]
      notifications := [⟨userId, NotificationType.SUCCESS, "採用決定",
        "案件「" ++ p.title ++ "」に採用されました！",
        some ("PROJECT:" ++ p.id)⟩] }
  | _, _ =>
    { projectUpdates := [], applicationUpdates := [], invoicesCreated := []
      toasts := [⟨NotificationType.ERROR, "エラー", "データが見つかりませんでした。"⟩]
      notifications := [] }

/-! ## Update invoice status (src/App.tsx, `handleUpdateInvoiceStatus`) -/

/-- Fields written by `updateDocument('invoices', invoiceId, updateData)`:
the status, and `issueDate` stamped only on transition to BILLED. -/
structure InvoiceStatusUpdate where
  status : InvoiceStatus
  issueDate : Option String
deriving DecidableEq

structure UpdateInvoiceStatusResult where
  invoiceUpdates : List (String × InvoiceStatusUpdate)
  toasts : List ToastMsg
  notifications : List NotificationOut
deriving DecidableEq

/-- `handleUpdateInvoiceStatus(invoiceId, status)` from `src/App.tsx`.
`invoices` is the locally cached invoice list; `today` stands for
`new Date().toISOString().split('T')[0]`. -/
def handleUpdateInvoiceStatus (invoices : List Invoice)
    (invoiceId : String) (status : InvoiceStatus) (today : String) :
    UpdateInvoiceStatusResult :=
  let invoice := invoices.find? (fun i => i.id == invoiceId)
  let updateData : InvoiceStatusUpdate :=
    ⟨status, if status = InvoiceStatus.BILLED then some today else none⟩
  let toasts : List ToastMsg :=
    [⟨NotificationType.INFO, "ステータス更新", "請求ステータスを更新しました。"⟩]
  match invoice with
  | some inv =>
    if status = InvoiceStatus.PAID then
      { invoiceUpdates := [(invoiceId, updateData)], toasts := toasts
        notifications := [⟨inv.userId, NotificationType.SUCCESS, "入金確認",
          "案件の報酬（¥" ++ toString inv.amount ++ "）の入金が確認されました。",
          some "INVOICES"⟩] }
    else
      { invoiceUpdates := [(invoiceId, updateData)], toasts := toasts
        notifications := [] }
  | none =>
    { invoiceUpdates := [(invoiceId, updateData)], toasts := toasts
      notifications := [] }

/-! ## Create project (src/App.tsx, `handleCreateProject`) -/

/-- The `Project` record built by `handleCreateProject` in `src/App.tsx`:
status `RECRUITING`, no assignee, no review.  `newId` stands for
`p${Date.now()}` and `today` for `new Date().toISOString().split('T')[0]`. -/
def mkNewProject (newId title description : String)
    (category : ProjectCategory) (budget : Nat)
    (requiredSkills : List String) (today : String) : Project :=
  { id := newId, title := title, description := description
    category := category, budget := budget
    requiredSkills := requiredSkills
    status := ProjectStatus.RECRUITING, createdAt := today
    assignedToUserId := none, review := none }

/-- Effect of the hire-time write
`updateDocument('projects', projectId, { status: IN_PROGRESS, assignedToUserId: userId })`
(`src/App.tsx`, `handleHireApplicant`) on the stored project record. -/
def applyHireUpdate (p : Project) (userId : String) : Project :=
  { p with status := ProjectStatus.IN_PROGRESS, assignedToUserId := some userId }

/-- Effect of the completion-time write
`updateDocument('projects', projectId, { status: COMPLETED, review: {...} })`
(`src/App.tsx`, `handleCompleteProject`) on the stored project record:
the assignee field is not touched. -/
def applyCompleteUpdate (p : Project) (r : Review) : Project :=
  { p with status := ProjectStatus.COMPLETED, review := some r }

/-- Project records reachable through the workflow operations.  The guards are
the ones the source enforces before invoking the handlers:
`src/components/Projects.tsx` refuses the hire action unless the project is
`RECRUITING` (`handleHireClick`), and only renders the complete action while
the project is `IN_PROGRESS`. -/
inductive ReachableProject : Project → Prop
  | created (newId title description : String) (category : ProjectCategory)
      (budget : Nat) (requiredSkills : List String) (today : String) :
      ReachableProject
        (mkNewProject newId title description category budget requiredSkills today)
  | hired (p : Project) (userId : String) :
      ReachableProject p → p.status = ProjectStatus.RECRUITING →
      ReachableProject (applyHireUpdate p userId)
  | completed (p : Project) (r : Review) :
      ReachableProject p → p.status = ProjectStatus.IN_PROGRESS →
      ReachableProject (applyCompleteUpdate p r)

/-! ## Calendar model for the JS `Date` API (src/App.tsx, `handleCreateInvoice`)

`handleCreateInvoice` computes
`new Date(today.getFullYear(), today.getMonth() + 2, 0)`.
We embed a calendar date as a year (`Nat`), a month index (`0`–`11`, the JS
convention) and a day of month (`1`-based). -/

structure JSDate where
  year : Nat
  month : Nat
  day : Nat
deriving DecidableEq

def isLeapYear (y : Nat) : Bool :=
  (y % 4 = 0 && y % 100 ≠ 0) || y % 400 = 0

/-- Number of days of the (0-indexed) month `m` of year `y`. -/
def daysInMonth (y m : Nat) : Nat :=
  if m = 1 then (if isLeapYear y then 29 else 28)
  else if m = 3 ∨ m = 5 ∨ m = 8 ∨ m = 10 then 30
  else 31

/-- `new Date(y, m, 0)`: the JS `Date` constructor normalises month overflow
into the year and reads day `0` as the last day of the month before `m`. -/
def jsDateMonthDay0 (y m : Nat) : JSDate :=
  let pm := y * 12 + m - 1
  ⟨pm / 12, pm % 12, daysInMonth (pm / 12) (pm % 12)⟩

/-- `new Date(today.getFullYear(), today.getMonth() + 2, 0)` from
`src/App.tsx` (`handleCreateInvoice`, local `nextMonthLastDay`). -/
def nextMonthLastDay (today : JSDate) : JSDate :=
  jsDateMonthDay0 today.year (today.month + 2)

/-- Modelled from the spec's words for comparison: "the last calendar day of
the month after next relative to today (i.e., if issued in January, deadline
is the last day of March)". -/
def specLastDayOfMonthAfterNext (today : JSDate) : JSDate :=
  let t := today.year * 12 + today.month + 2
  ⟨t / 12, t % 12, daysInMonth (t / 12) (t % 12)⟩

/-- "Last calendar day of the next month", stated directly; the amended
description of the deadline actually computed by the source. -/
def lastDayOfNextMonth (today : JSDate) : JSDate :=
  if today.month ≥ 11 then ⟨today.year + 1, 0, 31⟩
  else ⟨today.year, today.month + 1, daysInMonth today.year (today.month + 1)⟩

/-! ## Bank-info JSON codec
(src/components/Profile.tsx `handleSave` / `useEffect`; src/App.tsx
`handleCreateInvoice`)

The profile save writes
`JSON.stringify({bankName, branchName, accountType, accountNumber, accountHolder})`;
the profile loader and the invoice handler read it back with `JSON.parse`.
We embed the codec concretely for this object shape, with the standard JSON
string escapes produced by `JSON.stringify`. -/

/-- The structured bank fields serialised by `handleSave`
(`src/components/Profile.tsx`). -/
structure BankInfo where
  bankName : String
  branchName : String
  accountType : String
  accountNumber : String
  accountHolder : String
deriving DecidableEq

/-- Lowercase hex digit, as used by `JSON.stringify` for `\u00XX` escapes. -/
def hexDigit (n : Nat) : Char :=
  if n < 10 then Char.ofNat (48 + n) else Char.ofNat (87 + n)

/-- Value of a hex digit accepted by `JSON.parse` (we only need the lowercase
range emitted by `JSON.stringify`, plus uppercase for completeness). -/
def hexVal (c : Char) : Option Nat :=
  if 48 ≤ c.toNat ∧ c.toNat ≤ 57 then some (c.toNat - 48)
  else if 97 ≤ c.toNat ∧ c.toNat ≤ 102 then some (c.toNat - 87)
  else if 65 ≤ c.toNat ∧ c.toNat ≤ 70 then some (c.toNat - 55)
  else none

/-- Escaping of one character inside a JSON string literal, following
`JSON.stringify`: `"` and `\` are backslash-escaped, the named control
escapes are used for `\b \t \n \f \r`, any other control character becomes
`\u00XX`, everything else is emitted verbatim. -/
def jsonEscapeChar (c : Char) : List Char :=
  if c = '"' then ['\\', '"']
  else if c = '\\' then ['\\', '\\']
  else if c = Char.ofNat 8 then ['\\', 'b']
  else if c = Char.ofNat 9 then ['\\', 't']
  else if c = Char.ofNat 10 then ['\\', 'n']
  else if c = Char.ofNat 12 then ['\\', 'f']
  else if c = Char.ofNat 13 then ['\\', 'r']
  else if c.toNat < 32 then
    ['\\', 'u', '0', '0', hexDigit (c.toNat / 16), hexDigit (c.toNat % 16)]
  else [c]

/-- JSON string literal for `s`, including the surrounding quotes. -/
def jsonQuote (s : String) : String :=
  String.mk ('"' :: (s.data.flatMap jsonEscapeChar ++ ['"']))

/-- `JSON.stringify` of the bank-info object written by `handleSave`
(`src/components/Profile.tsx`): keys in source order, no whitespace. -/
def stringifyBankInfo (b : BankInfo) : String :=
  "\x7b\"bankName\":" ++ jsonQuote b.bankName ++
  ",\"branchName\":" ++ jsonQuote b.branchName ++
  ",\"accountType\":" ++ jsonQuote b.accountType ++
  ",\"accountNumber\":" ++ jsonQuote b.accountNumber ++
  ",\"accountHolder\":" ++ jsonQuote b.accountHolder ++ "\x7d"

/-- Body of a JSON string literal: consumes characters up to the closing
quote, decoding the standard escapes; `none` on a malformed literal. -/
def parseStrChars : List Char → Option (List Char × List Char)
  | [] => none
  | c :: rest =>
    if c = '"' then some ([], rest)
    else if c = '\\' then
      match rest with
      | [] => none
      | e :: rest₂ =>
        if e = '"' ∨ e = '\\' ∨ e = '/' then
          (parseStrChars rest₂).map (fun r => (e :: r.1, r.2))
        else if e = 'b' then
          (parseStrChars rest₂).map (fun r => (Char.ofNat 8 :: r.1, r.2))
        else if e = 't' then
          (parseStrChars rest₂).map (fun r => (Char.ofNat 9 :: r.1, r.2))
        else if e = 'n' then
          (parseStrChars rest₂).map (fun r => (Char.ofNat 10 :: r.1, r.2))
        else if e = 'f' then
          (parseStrChars rest₂).map (fun r => (Char.ofNat 12 :: r.1, r.2))
        else if e = 'r' then
          (parseStrChars rest₂).map (fun r => (Char.ofNat 13 :: r.1, r.2))
        else if e = 'u' then
          match rest₂ with
          | h₁ :: h₂ :: h₃ :: h₄ :: rest₃ =>
            match hexVal h₁, hexVal h₂, hexVal h₃, hexVal h₄ with
            | some v₁, some v₂, some v₃, some v₄ =>
              (parseStrChars rest₃).map (fun r =>
                (Char.ofNat (((v₁ * 16 + v₂) * 16 + v₃) * 16 + v₄) :: r.1, r.2))
            | _, _, _, _ => none
          | _ => none
        else none
    else (parseStrChars rest).map (fun r => (c :: r.1, r.2))
termination_by l => l.length
decreasing_by all_goals first | omega | (simp_all; omega) | simp_all

/-- Expects the literal characters `pre` at the head of the input and returns
the remainder. -/
def expectChars : List Char → List Char → Option (List Char)
  | [], l => some l
  | p :: ps, c :: cs => if c = p then expectChars ps cs else none
  | _ :: _, [] => none

/-- Parses `"key":"<string>"` and returns the decoded string and remainder. -/
def parseField (key : String) (l : List Char) : Option (String × List Char) :=
  match expectChars ('"' :: (key.data ++ ['"', ':', '"'])) l with
  | none => none
  | some l₁ =>
    match parseStrChars l₁ with
    | none => none
    | some (cs, rest) => some (String.mk cs, rest)

/-- `JSON.parse` of a stored bank-info blob, specialised to the exact object
shape written by `handleSave`; `none` models the `JSON.parse` exception
(any input that is not such a blob). -/
def parseBankInfo (s : String) : Option BankInfo :=
  match expectChars ['{'] s.data with
  | none => none
  | some l₀ =>
  match parseField "bankName" l₀ with
  | none => none
  | some (bankName, l₁) =>
  match expectChars [','] l₁ with
  | none => none
  | some l₂ =>
  match parseField "branchName" l₂ with
  | none => none
  | some (branchName, l₃) =>
  match expectChars [','] l₃ with
  | none => none
  | some l₄ =>
  match parseField "accountType" l₄ with
  | none => none
  | some (accountType, l₅) =>
  match expectChars [','] l₅ with
  | none => none
  | some l₆ =>
  match parseField "accountNumber" l₆ with
  | none => none
  | some (accountNumber, l₇) =>
  match expectChars [','] l₇ with
  | none => none
  | some l₈ =>
  match parseField "accountHolder" l₈ with
  | none => none
  | some (accountHolder, l₉) =>
  match l₉ with
  | ['}'] => some ⟨bankName, branchName, accountType, accountNumber, accountHolder⟩
  | _ => none

/-- The bank form state loaded by the `useEffect` in
`src/components/Profile.tsx`: defaults, overridden by the parsed blob when
`targetUser.bankAccountInfo` is truthy and parses; parse failure keeps the
defaults (the `catch` branch). -/
def loadBankFormData (bankAccountInfo : Option String) : BankInfo :=
  let dflt : BankInfo := ⟨"", "", "普通", "", ""⟩
  match bankAccountInfo with
  | none => dflt
  | some s =>
    if s = "" then dflt
    else
      match parseBankInfo s with
      | some b => b
      | none => dflt

/-! ## Invoice issuance (src/App.tsx, `handleCreateInvoice`) -/

/-- Zero-padded two-digit rendering used inside ISO dates. -/
def pad2 (n : Nat) : String :=
  if n < 10 then "0" ++ toString n else toString n

/-- `toISOString().split('T')[0]` of a date, i.e. `YYYY-MM-DD` with the
1-based month (UTC environment assumed; 4-digit years in scope). -/
def isoDateString (d : JSDate) : String :=
  toString d.year ++ "-" ++ pad2 (d.month + 1) ++ "-" ++ pad2 d.day

/-- The hardcoded client organisation block of the payload. -/
structure ClientInfo where
  name : String
  postalCode : String
  address : String
  phoneNumber : String
  contactPerson : String
deriving DecidableEq

def clientInfo : ClientInfo :=
  { name := "Pantheon株式会社", postalCode := "103-0027"
    address := "東京都中央区日本橋2-10-3 エグゼトゥール日本橋10階"
    phoneNumber := "03-6281-8871", contactPerson := "山本" }

/-- The `bankAccountInfo` slot of the payload: either the object produced by
`JSON.parse`, or a raw string carried through unparsed. -/
inductive BankField
  | parsedInfo (b : BankInfo)
  | raw (s : String)
deriving DecidableEq

/-- `src/App.tsx` (`handleCreateInvoice`): `partnerBankInfo` is the parse of a
truthy `currentUser.bankAccountInfo` (`JSON.parse` failure caught, leaving
`null`); the payload slot is `partnerBankInfo || currentUser.bankAccountInfo
|| ''`. -/
def selectBankField (bankAccountInfo : Option String) : BankField :=
  match bankAccountInfo with
  | none => BankField.raw ""
  | some s =>
    if s = "" then BankField.raw ""
    else
      match parseBankInfo s with
      | some b => BankField.parsedInfo b
      | none => BankField.raw s

structure PartnerInfo where
  id : String
  name : String
  email : String
  postalCode : String
  address : String
  phoneNumber : String
  invoiceNumber : String
  bankAccountInfo : BankField
deriving DecidableEq

structure LineItem where
  name : String
  quantity : Nat
  unitPrice : Nat
  taxRate : ℚ
deriving DecidableEq

/-- The JSON body POSTed to the invoice-generation webhook. -/
structure InvoicePayload where
  invoiceId : String
  issueDate : String
  paymentDeadline : String
  partner : PartnerInfo
  client : ClientInfo
  items : List LineItem
  totalAmount : Nat
  taxAmount : Nat
  subTotal : Nat
deriving DecidableEq

/-- The payload assembled by `handleCreateInvoice` (`src/App.tsx`).
`Math.floor(amount * 1.1)` and `Math.floor(amount * 0.1)` are read over exact
rationals, which for a natural `amount` is truncating division. -/
def createInvoicePayload (currentUser : User) (project : Project)
    (currentInvoiceId : String) (today : JSDate) (amount : Nat) :
    InvoicePayload :=
  { invoiceId := currentInvoiceId
    issueDate := isoDateString today
    paymentDeadline := isoDateString (nextMonthLastDay today)
    partner :=
      { id := currentUser.id, name := currentUser.name
        email := currentUser.email
        postalCode := jsOrString currentUser.postalCode ""
        address := jsOrString currentUser.address ""
        phoneNumber := jsOrString currentUser.phoneNumber ""
        invoiceNumber := jsOrString currentUser.invoiceNumber "T_PENDING"
        bankAccountInfo := selectBankField currentUser.bankAccountInfo }
    client := clientInfo
    items := [⟨project.title, 1, amount, (1 : ℚ) / 10⟩]
    totalAmount := amount * 11 / 10
    taxAmount := amount / 10
    subTotal := amount }

/-- Outcome of the `fetch` to the webhook: the promise rejected, or an HTTP
response with the given status code. -/
inductive WebhookOutcome
  | networkError
  | response (status : Nat)
deriving DecidableEq

/-- Outcomes of the external calls `handleCreateInvoice` performs inside its
`try` block. -/
structure InvoiceEnv where
  webhook : WebhookOutcome
  storageOk : Bool
  storageUrl : String
  localUrl : String
  dbOk : Bool
deriving DecidableEq

inductive InvoiceError
  | network
  | webhookStatus (status : Nat)
  | dbWrite
deriving DecidableEq

/-- How `handleCreateInvoice` returned: the two guarded early returns, normal
completion, or a re-thrown error from the `catch` block. -/
inductive InvoiceOutcome
  | returnedNoUser
  | returnedNoProject
  | success
  | thrown (e : InvoiceError)
deriving DecidableEq

/-- Fields of `updateDocument('invoices', invoiceId, updateData)` in the
re-issuance branch. -/
structure InvoiceBilledUpdate where
  amount : Nat
  issueDate : String
  status : InvoiceStatus
  pdfUrl : String
deriving DecidableEq

structure CreateInvoiceResult where
  payload : Option InvoicePayload
  invoicesCreated : List Invoice
  invoiceUpdates : List (String × InvoiceBilledUpdate)
  toasts : List ToastMsg
  notifications : List NotificationOut
  outcome : InvoiceOutcome
deriving DecidableEq

/-- The failure toast of the `catch` block in `handleCreateInvoice`. -/
def invoiceFailToast : ToastMsg :=
  ⟨NotificationType.ERROR, "発行失敗",
    "n8nワークフローの呼び出しに失敗しました。後ほど再試行してください。"⟩

/-- `handleCreateInvoice(projectId, amount, invoiceId?)` from `src/App.tsx`.
`today` stands for `new Date()`, `newId` for the generated `inv${Date.now()}`;
`env` describes the outcomes of the webhook call, the storage upload and the
store write (a storage failure is swallowed with a local-URL fallback; a
store-write failure propagates to the `catch` block). -/
def handleCreateInvoice (env : InvoiceEnv) (currentUser : Option User)
    (projects : List Project) (users : List User) (projectId : String)
    (amount : Nat) (invoiceId : Option String) (today : JSDate)
    (newId : String) : CreateInvoiceResult :=
  match currentUser with
  | none => ⟨none, [], [], [], [], InvoiceOutcome.returnedNoUser⟩
  | some currentUser =>
    match projects.find? (fun p => p.id == projectId) with
    | none =>
      ⟨none, [], [],
        [⟨NotificationType.ERROR, "エラー", "案件情報が見つかりません。"⟩],
        [], InvoiceOutcome.returnedNoProject⟩
    | some project =>
      -- JS: const currentInvoiceId = invoiceId || `inv${Date.now()}`
      let currentInvoiceId := jsOrString invoiceId newId
      let issueDate := isoDateString today
      let payload := createInvoicePayload currentUser project currentInvoiceId today amount
      match env.webhook with
      | WebhookOutcome.networkError =>
        ⟨some payload, [], [], [invoiceFailToast], [],
          InvoiceOutcome.thrown InvoiceError.network⟩
      | WebhookOutcome.response status =>
        -- JS: if (!response.ok) throw new Error(`n8n connection failed: ...`)
        if ¬(200 ≤ status ∧ status < 300) then
          ⟨some payload, [], [], [invoiceFailToast], [],
            InvoiceOutcome.thrown (InvoiceError.webhookStatus status)⟩
        else
          let persistentUrl := if env.storageOk then env.storageUrl else env.localUrl
          if env.dbOk then
            let admin := users.find? (fun u => u.role == UserRole.ADMIN)
            -- JS: if (invoiceId) — the empty string is falsy
            match invoiceId with
            | some iid =>
              if iid = "" then
                ⟨some payload,
                  [{ id := currentInvoiceId, projectId := projectId
                     userId := currentUser.id, amount := amount
                     issueDate := issueDate, status := InvoiceStatus.BILLED
                     pdfUrl := some persistentUrl }],
                  [],
                  [⟨NotificationType.SUCCESS, "請求書発行完了",
                    "請求書を作成し、ダウンロードしました。"⟩],
                  (match admin with
                   | some a => [⟨a.id, NotificationType.INFO, "請求書発行",
                       currentUser.name ++ " さんから新しい請求書が発行されました。",
                       some "INVOICES"⟩]
                   | none => []),
                  InvoiceOutcome.success⟩
              else
                ⟨some payload, [],
                  [(iid, ⟨amount, issueDate, InvoiceStatus.BILLED, persistentUrl⟩)],
                  [⟨NotificationType.SUCCESS, "請求書更新完了",
                    "請求書を更新し、ダウンロードしました。"⟩],
                  (match admin with
                   | some a => [⟨a.id, NotificationType.INFO, "請求書更新",
                       currentUser.name ++ " さんが請求書を更新・発行しました。",
                       some "INVOICES"⟩]
                   | none => []),
                  InvoiceOutcome.success⟩
            | none =>
              ⟨some payload,
                [{ id := currentInvoiceId, projectId := projectId
                   userId := currentUser.id, amount := amount
                   issueDate := issueDate, status := InvoiceStatus.BILLED
                   pdfUrl := some persistentUrl }],
                [],
                [⟨NotificationType.SUCCESS, "請求書発行完了",
                  "請求書を作成し、ダウンロードしました。"⟩],
                (match admin with
                 | some a => [⟨a.id, NotificationType.INFO, "請求書発行",
                     currentUser.name ++ " さんから新しい請求書が発行されました。",
                     some "INVOICES"⟩]
                 | none => []),
                InvoiceOutcome.success⟩
          else
            ⟨some payload, [], [], [invoiceFailToast], [],
              InvoiceOutcome.thrown InvoiceError.dbWrite⟩

/-! ## Auth listener, null-session branch (src/App.tsx, `onAuthStateChanged`)

The listener's state is held in refs (`currentUserRef`, `hasInitialAuthCheck`,
`isIntentionalLogout`) plus the view state; we bundle them and embed the
`firebaseUser == null` branch of the callback as a state transformer. -/

structure AuthState where
  currentUser : Option User
  view : ViewState
  hasInitialAuthCheck : Bool
  isIntentionalLogout : Bool
deriving DecidableEq

structure AuthNullResult where
  state : AuthState
  signOutCalled : Bool
deriving DecidableEq

/-- The designated operator identity exempt from forced sign-out. -/
def pantheonAdminId : String := "WRIu0Aenv3H9FE092W53"

/-- The `firebaseUser == null` branch of the `onAuthStateChanged` callback in
`src/App.tsx`: intentional logout clears state to the login screen; the
operator identity and an already-loaded user past the initial check are left
untouched; otherwise the first check lands on the login screen. -/
def onAuthStateChangedNull (s : AuthState) : AuthNullResult :=
  if s.isIntentionalLogout then
    { state := { s with isIntentionalLogout := false, currentUser := none,
                        view := ViewState.LOGIN }
      signOutCalled := false }
  else if (match s.currentUser with
           | some u => u.id == pantheonAdminId
           | none => false) then
    { state := s, signOutCalled := false }
  else if s.currentUser.isSome && s.hasInitialAuthCheck then
    { state := s, signOutCalled := false }
  else if !s.hasInitialAuthCheck then
    { state := { s with hasInitialAuthCheck := true, view := ViewState.LOGIN }
      signOutCalled := false }
  else
    { state := s, signOutCalled := false }

/-! ## Shared sample records (used by witness instantiations) -/

def sampleUser : User :=
  { id := "u1", name := "Partner One", email := "p1@example.com"
    role := UserRole.PARTNER, status := UserStatus.ACTIVE
    jobPortalEnabled := true, invoiceNumber := none, bankAccountInfo := none
    phoneNumber := none, postalCode := none, address := none }

def sampleAdmin : User :=
  { id := "adm1", name := "Pantheon Admin", email := "admin@example.com"
    role := UserRole.ADMIN, status := UserStatus.ACTIVE
    jobPortalEnabled := true, invoiceNumber := none, bankAccountInfo := none
    phoneNumber := none, postalCode := none, address := none }

def sampleProject : Project :=
  { id := "p1", title := "LP制作", description := "desc"
    category := ProjectCategory.DEVELOPMENT, budget := 100000
    requiredSkills := [], status := ProjectStatus.RECRUITING
    createdAt := "2026-01-01", assignedToUserId := none, review := none }

def sampleApplication : Application :=
  { id := "a1", projectId := "p1", userId := "u1"
    status := ApplicationStatus.APPLIED, message := "msg"
    quoteAmount := 150000, availableStartDate := "2026-01-02"
    createdAt := "2026-01-02", isRead := false }

/-! ## Theorems -/

/-- C1: for every `Hire(projectId, applicationId, partnerId)` in which both
the project and the application resolve, exactly one new `Invoice` is
created, with status `UNBILLED`, `issueDate` the placeholder `"-"`, and
amount the application's `quoteAmount` when it is non-zero, else the
project's `budget`. -/
theorem hire_creates_single_unbilled_invoice
    (projects : List Project) (applications : List Application)
    (projectId applicationId userId invId : String)
    (p : Project) (a : Application)
    (hp : projects.find? (fun q => q.id == projectId) = some p)
    (ha : applications.find? (fun b => b.id == applicationId) = some a) :
    (handleHireApplicant projects applications projectId applicationId userId invId).invoicesCreated =
      [{ id := invId, projectId := projectId, userId := userId
         amount := if a.quoteAmount = 0 then p.budget else a.quoteAmount
         issueDate := "-", status := InvoiceStatus.UNBILLED, pdfUrl := none }] := by
  simp [handleHireApplicant, hp, ha]

theorem hire_creates_single_unbilled_invoice_witness :
    (handleHireApplicant [sampleProject] [sampleApplication] "p1" "a1" "u1" "inv1").invoicesCreated =
      [{ id := "inv1", projectId := "p1", userId := "u1"
         amount := if sampleApplication.quoteAmount = 0 then sampleProject.budget
                   else sampleApplication.quoteAmount
         issueDate := "-", status := InvoiceStatus.UNBILLED, pdfUrl := none }] :=
  hire_creates_single_unbilled_invoice [sampleProject] [sampleApplication]
    "p1" "a1" "u1" "inv1" sampleProject sampleApplication (by decide) (by decide)

/-- C2: for every project record reachable through the workflow operations
(create project, hire with the recruiting guard, complete with the
in-progress guard), the assignee is set exactly when the status is
`IN_PROGRESS` or `COMPLETED`. -/
theorem reachable_project_assigned_iff (p : Project) (h : ReachableProject p) :
    p.assignedToUserId.isSome ↔
      (p.status = ProjectStatus.IN_PROGRESS ∨ p.status = ProjectStatus.COMPLETED) := by
  induction h with
  | created newId title description category budget requiredSkills today =>
    simp [mkNewProject]
  | hired p userId hr hst ih =>
    simp [applyHireUpdate]
  | completed p r hr hst ih =>
    have ha : p.assignedToUserId.isSome := ih.mpr (Or.inl hst)
    simp [applyCompleteUpdate, ha]

theorem reachable_project_assigned_iff_witness :
    ((applyHireUpdate (mkNewProject "p9" "t" "d" ProjectCategory.DEVELOPMENT 1000 [] "2026-01-01") "u1").assignedToUserId.isSome ↔
      ((applyHireUpdate (mkNewProject "p9" "t" "d" ProjectCategory.DEVELOPMENT 1000 [] "2026-01-01") "u1").status = ProjectStatus.IN_PROGRESS ∨
       (applyHireUpdate (mkNewProject "p9" "t" "d" ProjectCategory.DEVELOPMENT 1000 [] "2026-01-01") "u1").status = ProjectStatus.COMPLETED)) :=
  reachable_project_assigned_iff _
    (ReachableProject.hired _ "u1"
      (ReachableProject.created "p9" "t" "d" ProjectCategory.DEVELOPMENT 1000 [] "2026-01-01")
      rfl)

/-- C7: `markAllRead` is idempotent — running the handler twice over the
notification store leaves exactly the notifications the first run left. -/
theorem markAllNotificationsRead_idempotent (currentUser : Option User)
    (notifications : List Notification) :
    handleMarkAllNotificationsRead currentUser
        (handleMarkAllNotificationsRead currentUser notifications) =
      handleMarkAllNotificationsRead currentUser notifications := by
  cases currentUser with
  | none => rfl
  | some cu =>
    simp only [handleMarkAllNotificationsRead, List.map_map]
    refine List.map_congr_left (fun n _ => ?_)
    by_cases h1 : n.isRead <;> by_cases h2 : n.userId == cu.id <;>
      simp [Function.comp, h1, h2]

/-- C9: `handleApply` with no authenticated user performs no write at all —
no application record, no toast, no notification. -/
theorem apply_without_user_has_no_effect (projects : List Project)
    (users : List User) (projectId message : String) (quoteAmount : Nat)
    (today newId : String) :
    handleApply none projects users projectId message quoteAmount today newId =
      ⟨[], [], []⟩ :=
  rfl

/-- C10: `handleUpdateInvoiceStatus` always performs exactly the one status
write (stamping `issueDate` exactly on transition to `BILLED`), whether or
not the invoice is in the cached list; the payment-confirmation notification
is sent exactly when the status is `PAID` and the invoice is found in the
cached list. -/
theorem updateInvoiceStatus_always_writes_notifies_only_found
    (invoices : List Invoice) (invoiceId : String) (status : InvoiceStatus)
    (today : String) :
    (handleUpdateInvoiceStatus invoices invoiceId status today).invoiceUpdates =
      [(invoiceId, ⟨status, if status = InvoiceStatus.BILLED then some today else none⟩)] ∧
    ((handleUpdateInvoiceStatus invoices invoiceId status today).notifications ≠ [] ↔
      (status = InvoiceStatus.PAID ∧
        (invoices.find? (fun i => i.id == invoiceId)).isSome)) := by
  unfold handleUpdateInvoiceStatus
  cases hfind : invoices.find? (fun i => i.id == invoiceId) with
  | none => simp
  | some inv =>
    by_cases hst : status = InvoiceStatus.PAID <;> simp [hst]

/-- C3: the payload assembled by `handleCreateInvoice` satisfies
`totalAmount = ⌊amount × 1.10⌋`, `taxAmount = ⌊amount × 0.10⌋` and
`subTotal = amount`, with the floors read as exact mathematical floors of
the exact rational products. -/
theorem invoice_payload_amounts_floor
    (currentUser : User) (project : Project) (currentInvoiceId : String)
    (today : JSDate) (amount : Nat) :
    (((createInvoicePayload currentUser project currentInvoiceId today amount).totalAmount : ℤ) =
        ⌊(amount : ℚ) * (11 / 10 : ℚ)⌋) ∧
    (((createInvoicePayload currentUser project currentInvoiceId today amount).taxAmount : ℤ) =
        ⌊(amount : ℚ) * (1 / 10 : ℚ)⌋) ∧
    (createInvoicePayload currentUser project currentInvoiceId today amount).subTotal = amount := by
  refine ⟨?_, ?_, rfl⟩
  · have h : (amount : ℚ) * (11 / 10) = (((amount * 11 : ℕ) : ℤ) : ℚ) / ((10 : ℕ) : ℚ) := by
      push_cast
      ring
    rw [h, Rat.floor_intCast_div_natCast]
    show ((amount * 11 / 10 : ℕ) : ℤ) = ((amount * 11 : ℕ) : ℤ) / ((10 : ℕ) : ℤ)
    omega
  · have h : (amount : ℚ) * (1 / 10) = (((amount : ℕ) : ℤ) : ℚ) / ((10 : ℕ) : ℚ) := by
      push_cast
      ring
    rw [h, Rat.floor_intCast_div_natCast]
    show ((amount / 10 : ℕ) : ℤ) = ((amount : ℕ) : ℤ) / ((10 : ℕ) : ℤ)
    omega

/-- The `new Date(y, m + 2, 0)` computation lands on the last day of the
month immediately after `m`, for any in-range month index. -/
theorem nextMonthLastDay_eq_lastDayOfNextMonth (d : JSDate) (h : d.month < 12) :
    nextMonthLastDay d = lastDayOfNextMonth d := by
  rcases d with ⟨y, m, day⟩
  simp only [nextMonthLastDay, jsDateMonthDay0, lastDayOfNextMonth] at *
  by_cases hm : 11 ≤ m
  · have hm11 : m = 11 := by omega
    subst hm11
    have e1 : (y * 12 + (11 + 2) - 1) / 12 = y + 1 := by omega
    have e2 : (y * 12 + (11 + 2) - 1) % 12 = 0 := by omega
    rw [if_pos hm, e1, e2]
    simp [daysInMonth]
  · have e1 : (y * 12 + (m + 2) - 1) / 12 = y := by omega
    have e2 : (y * 12 + (m + 2) - 1) % 12 = m + 1 := by omega
    rw [if_neg hm, e1, e2]

/-- C4 counterexample: for an invoice issued on 2026-01-15 the payload's
`paymentDeadline` is 2026-02-28 — the last day of the *next* month — while
the spec's "last calendar day of the month after next" is 2026-03-31. -/
theorem paymentDeadline_not_month_after_next :
    (createInvoicePayload sampleUser sampleProject "inv1" ⟨2026, 0, 15⟩ 100000).paymentDeadline =
        "2026-02-28" ∧
    isoDateString (specLastDayOfMonthAfterNext ⟨2026, 0, 15⟩) = "2026-03-31" ∧
    (createInvoicePayload sampleUser sampleProject "inv1" ⟨2026, 0, 15⟩ 100000).paymentDeadline ≠
        isoDateString (specLastDayOfMonthAfterNext ⟨2026, 0, 15⟩) := by
  refine ⟨by decide, by decide, by decide⟩

/-- C4 (amended): the payload's `paymentDeadline` is the last calendar day
of the month immediately following today. -/
theorem paymentDeadline_is_last_day_of_next_month
    (currentUser : User) (project : Project) (currentInvoiceId : String)
    (today : JSDate) (amount : Nat) (h : today.month < 12) :
    (createInvoicePayload currentUser project currentInvoiceId today amount).paymentDeadline =
      isoDateString (lastDayOfNextMonth today) := by
  simp [createInvoicePayload, nextMonthLastDay_eq_lastDayOfNextMonth today h]

theorem paymentDeadline_is_last_day_of_next_month_witness :
    ((0 : Nat) < 12) ∧
    (createInvoicePayload sampleUser sampleProject "inv1" ⟨2026, 0, 15⟩ 100000).paymentDeadline =
      isoDateString (lastDayOfNextMonth ⟨2026, 0, 15⟩) :=
  ⟨by decide,
    paymentDeadline_is_last_day_of_next_month sampleUser sampleProject "inv1"
      ⟨2026, 0, 15⟩ 100000 (by decide)⟩

/-- `true` exactly on the re-thrown outcomes of `handleCreateInvoice`. -/
def isThrown : InvoiceOutcome → Bool
  | InvoiceOutcome.thrown _ => true
  | _ => false

/-- C5: with an authenticated user and a resolving project, every non-2xx
webhook response, every webhook network error, and every store-write failure
makes `handleCreateInvoice` show the failure toast and re-throw to its
caller (rather than swallowing the error). -/
theorem createInvoice_failure_toasts_and_rethrows
    (env : InvoiceEnv) (currentUser : User) (projects : List Project)
    (users : List User) (projectId : String) (amount : Nat)
    (invoiceId : Option String) (today : JSDate) (newId : String)
    (p : Project) (hp : projects.find? (fun q => q.id == projectId) = some p)
    (hfail : env.webhook = WebhookOutcome.networkError ∨
      (∃ st, env.webhook = WebhookOutcome.response st ∧ ¬(200 ≤ st ∧ st < 300)) ∨
      env.dbOk = false) :
    isThrown (handleCreateInvoice env (some currentUser) projects users
        projectId amount invoiceId today newId).outcome = true ∧
    (handleCreateInvoice env (some currentUser) projects users
        projectId amount invoiceId today newId).toasts = [invoiceFailToast] := by
  unfold handleCreateInvoice
  rw [hp]
  rcases henv : env.webhook with _ | st
  · exact ⟨rfl, rfl⟩
  · by_cases hok : 200 ≤ st ∧ st < 300
    · have hdb : env.dbOk = false := by
        rcases hfail with h | ⟨st₂, hst₂, hbad⟩ | hdb
        · rw [henv] at h
          simp at h
        · rw [henv] at hst₂
          obtain rfl : st = st₂ := by injection hst₂
          exact absurd hok hbad
        · exact hdb
      simp [hok, hdb, isThrown]
    · simp [hok, isThrown]

theorem createInvoice_failure_toasts_and_rethrows_witness :
    isThrown (handleCreateInvoice ⟨WebhookOutcome.response 500, true, "s", "l", true⟩
        (some sampleUser) [sampleProject] [] "p1" 100000 none ⟨2026, 0, 15⟩ "inv1").outcome = true ∧
    (handleCreateInvoice ⟨WebhookOutcome.response 500, true, "s", "l", true⟩
        (some sampleUser) [sampleProject] [] "p1" 100000 none ⟨2026, 0, 15⟩ "inv1").toasts =
      [invoiceFailToast] :=
  createInvoice_failure_toasts_and_rethrows _ sampleUser _ _ _ _ _ _ _
    sampleProject (by decide) (Or.inr (Or.inl ⟨500, rfl, by decide⟩))

/-- C6 counterexample: a null-session auth event arriving while a user is
loaded and the initial check has completed *does* change state when the
intentional-logout flag is set — the handler clears the user and returns to
the login screen. -/
theorem authNull_changes_state_on_intentional_logout :
    (⟨some sampleUser, ViewState.DASHBOARD, true, true⟩ : AuthState).currentUser.isSome = true ∧
    (⟨some sampleUser, ViewState.DASHBOARD, true, true⟩ : AuthState).hasInitialAuthCheck = true ∧
    (onAuthStateChangedNull ⟨some sampleUser, ViewState.DASHBOARD, true, true⟩).state ≠
      (⟨some sampleUser, ViewState.DASHBOARD, true, true⟩ : AuthState) := by
  refine ⟨rfl, rfl, by decide⟩

/-- C6 (amended): a null-session auth event arriving while a user is loaded,
the initial auth check has completed, and no intentional logout is pending,
performs no sign-out and leaves the state unchanged. -/
theorem authNull_ignores_transient_disconnect (s : AuthState)
    (hflag : s.isIntentionalLogout = false)
    (huser : s.currentUser.isSome = true)
    (hcheck : s.hasInitialAuthCheck = true) :
    onAuthStateChangedNull s = ⟨s, false⟩ := by
  rcases s with ⟨cu, v, hc, il⟩
  simp only at hflag huser hcheck
  subst hflag
  subst hcheck
  cases cu with
  | none => simp at huser
  | some u =>
    unfold onAuthStateChangedNull
    simp only [Bool.false_eq_true, if_false]
    by_cases hid : u.id == pantheonAdminId <;> simp [hid]

theorem authNull_ignores_transient_disconnect_witness :
    onAuthStateChangedNull ⟨some sampleUser, ViewState.DASHBOARD, true, false⟩ =
      ⟨⟨some sampleUser, ViewState.DASHBOARD, true, false⟩, false⟩ :=
  authNull_ignores_transient_disconnect _ rfl rfl rfl

/-! ### Round-trip lemmas for the bank-info codec -/

theorem expectChars_append (pre rest : List Char) :
    expectChars pre (pre ++ rest) = some rest := by
  induction pre with
  | nil => rfl
  | cons c cs ih => simp [expectChars, ih]

theorem expectChars_cons_self (x : Char) (r : List Char) :
    expectChars [x] (x :: r) = some r := by
  simp [expectChars]

theorem hexVal_hexDigit : ∀ k, k < 16 → hexVal (hexDigit k) = some k := by
  decide

/-- Decoding inverts the escaping of a single character. -/
theorem parseStrChars_escapeChar (c : Char) (l : List Char) :
    parseStrChars (jsonEscapeChar c ++ l) =
      (parseStrChars l).map (fun r => (c :: r.1, r.2)) := by
  unfold jsonEscapeChar
  by_cases h1 : c = '"'
  · subst h1
    rw [if_pos rfl]
    conv_lhs => rw [parseStrChars.eq_def]
    simp
  · rw [if_neg h1]
    by_cases h2 : c = '\\'
    · subst h2
      rw [if_pos rfl]
      conv_lhs => rw [parseStrChars.eq_def]
      simp
    · rw [if_neg h2]
      by_cases h3 : c = Char.ofNat 8
      · subst h3
        rw [if_pos rfl]
        conv_lhs => rw [parseStrChars.eq_def]
        simp
      · rw [if_neg h3]
        by_cases h4 : c = Char.ofNat 9
        · subst h4
          rw [if_pos rfl]
          conv_lhs => rw [parseStrChars.eq_def]
          simp
        · rw [if_neg h4]
          by_cases h5 : c = Char.ofNat 10
          · subst h5
            rw [if_pos rfl]
            conv_lhs => rw [parseStrChars.eq_def]
            simp
          · rw [if_neg h5]
            by_cases h6 : c = Char.ofNat 12
            · subst h6
              rw [if_pos rfl]
              conv_lhs => rw [parseStrChars.eq_def]
              simp
            · rw [if_neg h6]
              by_cases h7 : c = Char.ofNat 13
              · subst h7
                rw [if_pos rfl]
                conv_lhs => rw [parseStrChars.eq_def]
                simp
              · rw [if_neg h7]
                by_cases h8 : c.toNat < 32
                · rw [if_pos h8]
                  have hv1 : hexVal (hexDigit (c.toNat / 16)) = some (c.toNat / 16) :=
                    hexVal_hexDigit _ (by omega)
                  have hv2 : hexVal (hexDigit (c.toNat % 16)) = some (c.toNat % 16) :=
                    hexVal_hexDigit _ (by omega)
                  have hv0 : hexVal '0' = some 0 := rfl
                  have harith : c.toNat / 16 * 16 + c.toNat % 16 = c.toNat := by
                    omega
                  conv_lhs => rw [parseStrChars.eq_def]
                  simp [hv0, hv1, hv2, harith, Char.ofNat_toNat]
                · rw [if_neg h8]
                  conv_lhs => rw [parseStrChars.eq_def]
                  simp [h1, h2]

/-- Decoding inverts the escaping of a whole string body, up to the closing
quote. -/
theorem parseStrChars_escape (s : List Char) (rest : List Char) :
    parseStrChars (s.flatMap jsonEscapeChar ++ '"' :: rest) = some (s, rest) := by
  induction s with
  | nil =>
    simp only [List.flatMap_nil, List.nil_append]
    conv_lhs => rw [parseStrChars.eq_def]
    simp
  | cons c cs ih =>
    rw [List.flatMap_cons, List.append_assoc, parseStrChars_escapeChar, ih]
    rfl

/-- The serialised characters of one `"key":"value"` field. -/
def fieldChars (key v : String) : List Char :=
  ('"' :: (key.data ++ ['"', ':', '"'])) ++ (v.data.flatMap jsonEscapeChar ++ ['"'])

theorem parseField_fieldChars (key v : String) (rest : List Char) :
    parseField key (fieldChars key v ++ rest) = some (v, rest) := by
  unfold parseField fieldChars
  rw [List.append_assoc, expectChars_append]
  have e : (v.data.flatMap jsonEscapeChar ++ ['"']) ++ rest =
      v.data.flatMap jsonEscapeChar ++ ('"' :: rest) := by
    simp
  rw [e]
  simp [parseStrChars_escape]

theorem stringifyBankInfo_data (b : BankInfo) :
    (stringifyBankInfo b).data =
      '{' :: (fieldChars "bankName" b.bankName ++ (',' ::
        (fieldChars "branchName" b.branchName ++ (',' ::
          (fieldChars "accountType" b.accountType ++ (',' ::
            (fieldChars "accountNumber" b.accountNumber ++ (',' ::
              (fieldChars "accountHolder" b.accountHolder ++ ['}']))))))))) := by
  have e1 : ("\x7b\"bankName\":" : String).data =
      '{' :: ('"' :: (("bankName" : String).data ++ ['"', ':'])) := rfl
  have e2 : (",\"branchName\":" : String).data =
      ',' :: ('"' :: (("branchName" : String).data ++ ['"', ':'])) := rfl
  have e3 : (",\"accountType\":" : String).data =
      ',' :: ('"' :: (("accountType" : String).data ++ ['"', ':'])) := rfl
  have e4 : (",\"accountNumber\":" : String).data =
      ',' :: ('"' :: (("accountNumber" : String).data ++ ['"', ':'])) := rfl
  have e5 : (",\"accountHolder\":" : String).data =
      ',' :: ('"' :: (("accountHolder" : String).data ++ ['"', ':'])) := rfl
  have e6 : ("\x7d" : String).data = ['}'] := rfl
  simp [stringifyBankInfo, jsonQuote, fieldChars, String.data_append,
    e1, e2, e3, e4, e5, e6]

/-- Parsing inverts serialisation of the bank-info object. -/
theorem parseBankInfo_stringify (b : BankInfo) :
    parseBankInfo (stringifyBankInfo b) = some b := by
  obtain ⟨f1, f2, f3, f4, f5⟩ := b
  unfold parseBankInfo
  rw [stringifyBankInfo_data]
  simp only [expectChars_cons_self, parseField_fieldChars]

/-- C8: the bank-info blob written by the profile save parses back to the
same structured fields — both through the raw parser and through the
profile-form loader — and a stored blob that fails to parse is carried into
the invoice payload as the raw string, not discarded. -/
theorem bank_info_round_trip_and_raw_fallback (b : BankInfo) (s : String)
    (hs : s ≠ "") (hfail : parseBankInfo s = none) :
    parseBankInfo (stringifyBankInfo b) = some b ∧
    loadBankFormData (some (stringifyBankInfo b)) = b ∧
    selectBankField (some s) = BankField.raw s := by
  have h1 := parseBankInfo_stringify b
  refine ⟨h1, ?_, ?_⟩
  · have hne : stringifyBankInfo b ≠ "" := by
      intro h
      rw [h] at h1
      simp [parseBankInfo, expectChars] at h1
    simp [loadBankFormData, hne, h1]
  · simp [selectBankField, hs, hfail]

def sampleBankInfo : BankInfo :=
  { bankName := "みずほ銀行", branchName := "本店", accountType := "普通"
    accountNumber := "1234567", accountHolder := "ヤマダ タロウ" }

theorem bank_info_round_trip_and_raw_fallback_witness :
    parseBankInfo (stringifyBankInfo sampleBankInfo) = some sampleBankInfo ∧
    loadBankFormData (some (stringifyBankInfo sampleBankInfo)) = sampleBankInfo ∧
    selectBankField (some "raw-not-json") = BankField.raw "raw-not-json" :=
  bank_info_round_trip_and_raw_fallback sampleBankInfo "raw-not-json"
    (by decide) (by rfl)

end CreatorApp
